import Mathlib

/-!
Verification of the wicked configuration-ingestion layer: a shallow
embedding of `client/compat-suse.c` and `src/interface.c`, with theorems
settling the specification claims about the route-file parser, the
sysconfig translators, and the interface/lease object model.

Strings are processed as `List Char` so that every definition reduces in
the kernel.  Machine addresses are `Nat` values below `2 ^ width`.
-/

deriving instance DecidableEq for Except

namespace Wicked

/-! ## Basic character and string helpers (libc-level, modelled) -/

/-- Modelled from the spec: decimal digit test, as in `isdigit`. -/
def isDigitChar (c : Char) : Bool := c.isDigit

/-- Modelled from the spec: hexadecimal digit test. -/
def isHexChar (c : Char) : Bool :=
  c.isDigit || ('a' ≤ c && c ≤ 'f') || ('A' ≤ c && c ≤ 'F')

/-- Numeric value of a decimal digit character. -/
def digitVal (c : Char) : Nat := c.toNat - 48

/-- Numeric value of a hexadecimal digit character. -/
def hexVal (c : Char) : Nat :=
  if c.isDigit then c.toNat - 48
  else if 'a' ≤ c && c ≤ 'f' then c.toNat - 87
  else c.toNat - 55

/-- Decimal value of a digit string (no validation; 0 when empty). -/
def decVal (cs : List Char) : Nat := cs.foldl (fun a c => a * 10 + digitVal c) 0

/-- Hexadecimal value of a hex-digit string. -/
def hexValOf (cs : List Char) : Nat := cs.foldl (fun a c => a * 16 + hexVal c) 0

/-- Modelled from the spec: `strtoul(s, NULL, 10)` — value of the longest
leading run of decimal digits, 0 when there is none. -/
def strtoul10 (cs : List Char) : Nat := decVal (cs.takeWhile isDigitChar)

/-- Modelled from the spec: `strtoul(s, NULL, 0)` — a `0x` prefix selects
hexadecimal, a leading `0` octal, otherwise decimal; the value of the
longest valid leading digit run, 0 when there is none. -/
def strtoulBase0 (cs : List Char) : Nat :=
  match cs with
  | '0' :: 'x' :: rest => hexValOf (rest.takeWhile isHexChar)
  | '0' :: 'X' :: rest => hexValOf (rest.takeWhile isHexChar)
  | '0' :: rest =>
      (rest.takeWhile (fun c => c.isDigit && c ≤ '7')).foldl (fun a c => a * 8 + digitVal c) 0
  | _ => strtoul10 cs

/-- Worker for `strtokSplit`: accumulates the current token (reversed). -/
def strtokGo (p : Char → Bool) : List Char → List Char → List (List Char)
  | [], cur => if cur = [] then [] else [cur.reverse]
  | c :: rest, cur =>
    if p c then
      if cur = [] then strtokGo p rest []
      else cur.reverse :: strtokGo p rest []
    else strtokGo p rest (c :: cur)

/-- `strtok`-style split: tokens separated by delimiter characters,
empty tokens dropped (as repeated `strtok(NULL, delims)` does). -/
def strtokSplit (p : Char → Bool) (cs : List Char) : List (List Char) :=
  strtokGo p cs []

/-- Worker for `splitOnChar`, keeping empty fields. -/
def splitOnCharGo (sep : Char) : List Char → List Char → List (List Char)
  | [], cur => [cur.reverse]
  | c :: rest, cur =>
    if c = sep then cur.reverse :: splitOnCharGo sep rest []
    else splitOnCharGo sep rest (c :: cur)

/-- Split on a single separator character, keeping empty fields
(as `inet_pton`-style parsers see them). -/
def splitOnChar (sep : Char) (cs : List Char) : List (List Char) :=
  splitOnCharGo sep cs []

/-- Split a token at the first `/` (as `strchr(dest, '/')` does),
returning the part before it and, when present, the part after it. -/
def splitAtSlashGo : List Char → List Char → List Char × Option (List Char)
  | [], acc => (acc.reverse, none)
  | c :: rest, acc =>
    if c = '/' then (acc.reverse, some rest) else splitAtSlashGo rest (c :: acc)

def splitAtSlash (cs : List Char) : List Char × Option (List Char) :=
  splitAtSlashGo cs []

/-- Case-insensitive string equality, as `strcasecmp(a, b) == 0`. -/
def eqNoCase (a b : String) : Bool :=
  a.toList.map Char.toLower == b.toList.map Char.toLower

/-- Bit-counting worker with explicit fuel. -/
def popcountAux : Nat → Nat → Nat
  | 0, _ => 0
  | fuel + 1, n => if n = 0 then 0 else n % 2 + popcountAux fuel (n / 2)

/-- Modelled from the spec: `ni_sockaddr_netmask_bits` counts the set bits
of a netmask.  Addresses hold at most 128 bits, so fuel 128 is exact. -/
def popcount (n : Nat) : Nat := popcountAux 128 n

/-! ## Address families and socket addresses -/

/-- Address family: `AF_INET`, `AF_INET6` or `AF_UNSPEC`. -/
inductive AF where
  | unspec
  | inet
  | inet6
deriving DecidableEq, Repr, Fintype

/-- Bit width of an address of the given family. -/
def afWidth : AF → Nat
  | .inet => 32
  | .inet6 => 128
  | .unspec => 0

/-- Modelled from the spec: `ni_af_address_length` — address length in
bytes for a family (4 for IPv4, 16 for IPv6). -/
def ni_af_address_length : AF → Nat
  | .inet => 4
  | .inet6 => 16
  | .unspec => 0

/-- A socket address: family plus the address value as a natural number
below `2 ^ afWidth family`.  The all-zero `AF_UNSPEC` value models a
`memset`-cleared `ni_sockaddr_t`. -/
structure NiSockaddr where
  family : AF := .unspec
  value : Nat := 0
deriving DecidableEq, Repr

/-- Modelled from the spec: IPv4 dotted-quad parsing — exactly four
decimal groups of one to three digits, each at most 255. -/
def parseIPv4Group (g : List Char) : Option Nat :=
  if g ≠ [] && g.length ≤ 3 && g.all isDigitChar then
    let v := decVal g
    if v ≤ 255 then some v else none
  else none

def parseIPv4 (cs : List Char) : Option Nat :=
  match splitOnChar '.' cs with
  | [a, b, c, d] =>
    match parseIPv4Group a, parseIPv4Group b, parseIPv4Group c, parseIPv4Group d with
    | some va, some vb, some vc, some vd => some (((va * 256 + vb) * 256 + vc) * 256 + vd)
    | _, _, _, _ => none
  | _ => none

/-- Modelled from the spec: IPv6 textual parsing, in the uncompressed
eight-group hexadecimal form (each group one to four hex digits). -/
def parseIPv6Group (g : List Char) : Option Nat :=
  if g ≠ [] && g.length ≤ 4 && g.all isHexChar then some (hexValOf g) else none

def parseIPv6 (cs : List Char) : Option Nat :=
  match (splitOnChar ':' cs).mapM parseIPv6Group with
  | some gs => if gs.length = 8 then some (gs.foldl (fun a g => a * 65536 + g) 0) else none
  | none => none

/-- Modelled from the spec: `ni_sockaddr_parse(&addr, s, hint)` — parses
an IPv4 or IPv6 address text; a family hint other than `AF_UNSPEC`
restricts the accepted family. -/
def ni_sockaddr_parse_chars (hint : AF) (cs : List Char) : Option NiSockaddr :=
  if cs.contains ':' then
    if hint = AF.inet then none
    else (parseIPv6 cs).map (fun v => { family := .inet6, value := v })
  else
    if hint = AF.inet6 then none
    else (parseIPv4 cs).map (fun v => { family := .inet, value := v })

def ni_sockaddr_parse (hint : AF) (s : String) : Option NiSockaddr :=
  ni_sockaddr_parse_chars hint s.toList

/-- Modelled from the spec: `ni_sockaddr_prefix_parse` — accepts
`address` or `address/prefixlen`; without a `/` the prefix is reported
as absent (the source uses the `~0U` sentinel for this). -/
def ni_sockaddr_prefix_parse (s : String) : Option (NiSockaddr × Option Nat) :=
  let (base, sp) := splitAtSlash s.toList
  match ni_sockaddr_parse_chars AF.unspec base with
  | some a =>
    match sp with
    | some ps => some (a, some (strtoulBase0 ps))
    | none => some (a, none)
  | none => none

/-- Modelled from the spec: `ni_sockaddr_netmask_bits` of a parsed mask. -/
def ni_sockaddr_netmask_bits (m : NiSockaddr) : Nat := popcount m.value

/-! ## Route model and the route-file parser (`__ni_suse_read_routes`) -/

/-- A route: prefix length, destination, next-hop gateway and optional
device binding, plus an expiry timestamp (0 = never) used by leases. -/
structure NiRoute where
  prefixlen : Nat := 0
  destination : NiSockaddr := {}
  gateway : NiSockaddr := {}
  device : Option String := none
  expires : Nat := 0
deriving DecidableEq, Repr

/-- Device field of a parsed route line: present and not `-`. -/
def routeDevice (ifname : Option (List Char)) : Option String :=
  match ifname with
  | some n => if n = ['-'] then none else some (String.mk n)
  | none => none

/-- One line of a route file, as the loop body of
`__ni_suse_read_routes` handles it: the line is truncated at `#`, `\r`
or `\n`, tokenized on blanks into destination, gateway, mask, device and
(ignored) type; `.ok none` is a skipped blank line, `.error ()` is the
`goto error` path that aborts the whole file. -/
def parse_route_line (line : String) : Except Unit (Option NiRoute) :=
  let cs := line.toList.takeWhile (fun c => !(c == '#' || c == '\r' || c == '\n'))
  match strtokSplit (fun c => c == ' ' || c == '\t') cs with
  | [] => .ok none
  | dest :: rest =>
    let gw := rest[0]?
    let mask := rest[1]?
    let ifname := rest[2]?
    match (match gw with
           | none => some ({} : NiSockaddr)
           | some g =>
             if g = ['-'] then some ({} : NiSockaddr)
             else ni_sockaddr_parse_chars AF.unspec g) with
    | none => .error ()
    | some gw_addr =>
      if dest = "default".toList then
        .ok (some { prefixlen := 0, destination := { family := gw_addr.family, value := 0 },
                    gateway := gw_addr, device := routeDevice ifname })
      else
        let (destTok, sp) := splitAtSlash dest
        let prefixlen0 : Nat :=
          match sp with
          | some ps => strtoul10 ps
          | none => 255
        match ni_sockaddr_parse_chars AF.unspec destTok with
        | none => .error ()
        | some dest_addr =>
          match (if prefixlen0 = 255 then
                   match mask with
                   | none => some (ni_af_address_length dest_addr.family * 8)
                   | some mk =>
                     if mk = ['-'] then some (ni_af_address_length dest_addr.family * 8)
                     else
                       match ni_sockaddr_parse_chars AF.unspec mk with
                       | none => none
                       | some mask_addr => some (ni_sockaddr_netmask_bits mask_addr)
                 else some prefixlen0) with
          | none => .error ()
          | some prefixlen =>
            .ok (some { prefixlen := prefixlen, destination := dest_addr,
                        gateway := gw_addr, device := routeDevice ifname })

/-- Line loop of `__ni_suse_read_routes`: accumulates routes in order;
any line error destroys the partial list and yields `none` (NULL). -/
def read_routes_go : List String → List NiRoute → Option (List NiRoute)
  | [], acc => some acc
  | l :: rest, acc =>
    match parse_route_line l with
    | .error _ => none
    | .ok none => read_routes_go rest acc
    | .ok (some r) => read_routes_go rest (acc ++ [r])

/-- `__ni_suse_read_routes`, over the file's lines. -/
def ni_suse_read_routes (lines : List String) : Option (List NiRoute) :=
  read_routes_go lines []

/-! ## Sysconfig key/value sources -/

/-- One `KEY=value` variable of a sysconfig file (`ni_var_t`). -/
structure NiVar where
  name : String
  value : String
deriving DecidableEq, Repr

/-- `ni_sysconfig_get`: first variable with the given name. -/
def ni_sysconfig_get (sc : List NiVar) (n : String) : Option NiVar :=
  sc.find? (fun v => v.name == n)

/-- `ni_sysconfig_get_value`: the value of a present variable (possibly
empty — callers such as `__ni_suse_bootproto` test `!value[0]`). -/
def ni_sysconfig_get_value (sc : List NiVar) (n : String) : Option String :=
  (ni_sysconfig_get sc n).map (fun v => v.value)

/-- `__find_indexed_variable`: look up `basename ++ suffix` and treat an
empty value as absent. -/
def find_indexed_variable (sc : List NiVar) (basename suffix : String) : Option NiVar :=
  match ni_sysconfig_get sc (basename ++ suffix) with
  | some v => if v.value = "" then none else some v
  | none => none

/-! ## `__ni_suse_bootproto` -/

/-- The addrconf mechanisms a boot-protocol run enables: DHCP4, DHCP6,
IPv4 link-local (stubbed), whether static processing ran, and the
unknown-token warnings that were emitted. -/
structure BootprotoState where
  dhcp4 : Bool := false
  dhcp6 : Bool := false
  autoip : Bool := false
  staticDone : Bool := false
  warnings : List String := []
deriving DecidableEq, Repr

/-- `__ni_suse_bootproto`: resolves the `BOOTPROTO` variable for a device.
The token loop mirrors the source exactly: the first branch compares the
token `s` case-insensitively against `dhcp`, while the `dhcp4`, `dhcp6`
and `autoip` branches compare the whole variable `value` with
`ni_string_eq` (as the C does), and any other token is warned about. -/
def ni_suse_bootproto (sc : List NiVar) (devName : String) : BootprotoState :=
  let value :=
    match ni_sysconfig_get_value sc "BOOTPROTO" with
    | none => "static"
    | some v => if v = "" || devName == "lo" then "static" else v
  if eqNoCase value "none" then {}
  else if eqNoCase value "ibft" then {}
  else if eqNoCase value "6to4" then { staticDone := true }
  else if eqNoCase value "static" then { staticDone := true }
  else
    let toks := (strtokSplit (fun c => c == '+') value.toList).map (fun cs => String.mk cs)
    let st := toks.foldl
      (fun (st : BootprotoState) (s : String) =>
        if eqNoCase s "dhcp" then { st with dhcp4 := true, dhcp6 := true }
        else if value = "dhcp4" then { st with dhcp4 := true }
        else if value = "dhcp6" then { st with dhcp6 := true }
        else if value = "autoip" then { st with autoip := true }
        else { st with warnings := st.warnings ++ [s] })
      {}
    { st with staticDone := true }

/-! ## Bridge translation (`try_bridge`) -/

/-- `__ni_suse_valid_ifname`: non-empty, shorter than `IFNAMSIZ` (16),
leading alphanumeric, rest alphanumeric or `-`, `_`, `.`. -/
def ni_suse_valid_ifname (s : String) : Bool :=
  match s.toList with
  | [] => false
  | c :: rest =>
    decide (s.toList.length < 16) && c.isAlphanum &&
      rest.all (fun d => d.isAlphanum || d == '-' || d == '_' || d == '.')

/-- A bridge port (`ni_bridge_port_t`); `none` means the kernel default
(the priority or cost was never assigned). -/
structure NiBridgePort where
  ifname : String
  priority : Option Nat := none
  path_cost : Option Nat := none
deriving DecidableEq, Repr

/-- Modelled from the spec: `ni_parse_int` on the per-port tokens parses
a decimal number, failing on an empty or non-numeric string. -/
def ni_parse_int? (s : String) : Option Nat :=
  if s.toList ≠ [] && s.toList.all isDigitChar then some (decVal s.toList) else none

/-- The `BRIDGE_STP` block of `try_bridge` (the value stored into
`bridge->stp`): `off`/`no` store TRUE, `on`/`yes` store FALSE (the
source's mapping, verbatim), anything else is a parse error. -/
def try_bridge_stp (value : String) : Except String Bool :=
  if eqNoCase value "off" || eqNoCase value "no" then .ok true
  else if eqNoCase value "on" || eqNoCase value "yes" then .ok false
  else .error "BRIDGE_STP"

/-- The `BRIDGE_PORTS` block of `try_bridge`: whitespace-split names,
each validated, each appended as a new port. -/
def parse_bridge_ports (value : String) : Except String (List NiBridgePort) :=
  let names := (strtokSplit (fun c => c == ' ' || c == '\t') value.toList).map
    (fun cs => String.mk cs)
  if names.all ni_suse_valid_ifname then
    .ok (names.map (fun n => { ifname := n }))
  else .error "BRIDGE_PORTS"

/-- Replace port `i`'s priority. -/
def setPortPriority (ports : List NiBridgePort) (i v : Nat) : List NiBridgePort :=
  match ports[i]? with
  | some p => ports.set i { p with priority := some v }
  | none => ports

/-- Replace port `i`'s path cost. -/
def setPortPathCost (ports : List NiBridgePort) (i v : Nat) : List NiBridgePort :=
  match ports[i]? with
  | some p => ports.set i { p with path_cost := some v }
  | none => ports

/-- The `BRIDGE_PORTPRIORITIES` loop of `try_bridge`: one token per
iteration, index `i` advanced once in the for-update; `-` leaves the
port untouched; tokens beyond the port count are ignored. -/
def apply_port_priorities (ports : List NiBridgePort) :
    List String → Nat → Except String (List NiBridgePort)
  | [], _ => .ok ports
  | prio :: rest, i =>
    if i < ports.length then
      if prio = "-" then apply_port_priorities ports rest (i + 1)
      else
        match ni_parse_int? prio with
        | some tmp => apply_port_priorities (setPortPriority ports i tmp) rest (i + 1)
        | none => .error "BRIDGE_PORTPRIORITIES"
    else .ok ports

/-- The `BRIDGE_PATHCOSTS` loop of `try_bridge`: the body reads
`bridge->ports.data[i++]` (advancing `i` once) and the for-update runs
`++i` (advancing it again), so `i` moves by two per token — exactly as
in the source. -/
def apply_port_pathcosts (ports : List NiBridgePort) :
    List String → Nat → Except String (List NiBridgePort)
  | [], _ => .ok ports
  | cost :: rest, i =>
    if i < ports.length then
      let j := i + 1
      if cost = "-" then apply_port_pathcosts ports rest (j + 1)
      else
        match ni_parse_int? cost with
        | some tmp => apply_port_pathcosts (setPortPathCost ports i tmp) rest (j + 1)
        | none => .error "BRIDGE_PATHCOSTS"
    else .ok ports

/-! ## Tunnel translation (`try_tunnel`) -/

/-- Link types (`ni_iftype_t`), restricted to the constants this layer
uses. -/
inductive NiIftype where
  | unknown
  | loopback
  | ethernet
  | bond
  | bridge
  | vlan
  | wireless
  | tun
  | tap
  | sit
  | gre
  | tunnel
  | tunnel6
  | infiniband
deriving DecidableEq, Repr

/-- The value held by `dev->link.type`.  The source of `try_tunnel`
executes `dev->link.type = (ni_iftype_t)value`, casting the `TUNNEL`
string *pointer* to the enum type; a heap pointer is never one of the
small enum constants, so that result is kept distinct as `castPtr`. -/
inductive NiLinkTypeValue where
  | iftype (t : NiIftype)
  | castPtr (s : String)
deriving DecidableEq, Repr

/-- The fixed tunnel-kind table of `try_tunnel`. -/
def tunnel_types : List (String × NiIftype) :=
  [("tun", .tun), ("tap", .tap), ("sit", .sit),
   ("gre", .gre), ("ipip", .tunnel), ("ip6tnl", .tunnel6)]

/-- `try_tunnel`: on a table hit the source assigns the cast of the
value pointer (not `map->value`); on a miss, or with no `TUNNEL`
variable, the link type is left alone.  The function always returns
TRUE. -/
def try_tunnel (tunnelValue : Option String) (linkType : NiLinkTypeValue) :
    NiLinkTypeValue × Bool :=
  match tunnelValue with
  | some value =>
    if (tunnel_types.find? (fun m => m.1 == value)).isSome then
      (NiLinkTypeValue.castPtr value, true)
    else (linkType, true)
  | none => (linkType, true)

/-! ## Static address building (`__get_ipaddr`) -/

/-- An address record (`ni_address_t`): family, prefix length, local,
peer, anycast and broadcast addresses, and an expiry timestamp
(0 = never). -/
structure NiAddress where
  family : AF := .unspec
  prefixlen : Nat := 0
  local_addr : NiSockaddr := {}
  peer_addr : NiSockaddr := {}
  anycast_addr : NiSockaddr := {}
  bcast_addr : NiSockaddr := {}
  expires : Nat := 0
deriving DecidableEq, Repr

/-- The `prefixlen == ~0U` branch of `__get_ipaddr`: try the `PREFIXLEN`
variable (parsed with `strtoul(.., 0)`); else, for IPv4, a `NETMASK`
variable that parses as an IPv4 address contributes its set-bit count;
else the family's full width (`ni_af_sockaddr_info` length times 8). -/
def get_ipaddr_prefixlen (sc : List NiVar) (suffix : String) (family : AF) : Nat :=
  match find_indexed_variable sc "PREFIXLEN" suffix with
  | some pv => strtoulBase0 pv.value.toList
  | none =>
    if family = AF.inet then
      match find_indexed_variable sc "NETMASK" suffix with
      | some mv =>
        match ni_sockaddr_parse AF.inet mv.value with
        | some m => ni_sockaddr_netmask_bits m
        | none => afWidth family
      | none => afWidth family
    else afWidth family

/-- Broadcast handling of `__get_ipaddr` (IPv4 only): a present
`BROADCAST` variable is parsed with the `AF_INET` hint; an unparseable
value leaves a non-IPv4 family behind, which the family check then
clears to `AF_UNSPEC`; an absent variable is `memset` to zero. -/
def get_ipaddr_bcast_addr (sc : List NiVar) (suffix : String) : NiSockaddr :=
  match find_indexed_variable sc "BROADCAST" suffix with
  | some bv =>
    match ni_sockaddr_parse AF.inet bv.value with
    | some b => b
    | none => {}
  | none => {}

/-- Peer handling of `__get_ipaddr`: a present `REMOTE_IPADDR` variable
is parsed with `AF_UNSPEC`; a family different from the address's is
discarded (warned about) and cleared to `AF_UNSPEC`. -/
def get_ipaddr_peer_addr (sc : List NiVar) (suffix : String) (fam : AF) : NiSockaddr :=
  match find_indexed_variable sc "REMOTE_IPADDR" suffix with
  | some rv =>
    match ni_sockaddr_parse AF.unspec rv.value with
    | some p => if p.family = fam then p else {}
    | none => {}
  | none => {}

/-- `__get_ipaddr`: builds one address from `IPADDR<suffix>` and its
companion variables.  `.ok none` means the variable is absent or empty
(nothing added, success); `.error ()` is the `cannot_parse` failure. -/
def get_ipaddr (sc : List NiVar) (suffix : String) : Except Unit (Option NiAddress) :=
  match find_indexed_variable sc "IPADDR" suffix with
  | none => .ok none
  | some v =>
    match ni_sockaddr_prefix_parse v.value with
    | none => .error ()
    | some (localAddr, pfx) =>
      let plen :=
        match pfx with
        | some p => p
        | none => get_ipaddr_prefixlen sc suffix localAddr.family
      .ok (some { family := localAddr.family
                  prefixlen := plen
                  local_addr := localAddr
                  bcast_addr :=
                    if localAddr.family = AF.inet then get_ipaddr_bcast_addr sc suffix
                    else {}
                  peer_addr := get_ipaddr_peer_addr sc suffix localAddr.family })

/-! ## Start-mode resolution (`__ni_suse_startmode`) -/

/-- A timeout: a number of seconds or `NI_IFWORKER_INFINITE_TIMEOUT`. -/
inductive NiTimeout where
  | secs (n : Nat)
  | infinite
deriving DecidableEq, Repr

/-- `ni_ifworker_control_t`: link boot class, require-link string,
mandatory flag, persistence flag, timeout. -/
structure NiIfworkerControl where
  bootClass : Option String
  requireLink : Option String
  mandatory : Bool
  persistent : Bool
  timeout : NiTimeout
deriving DecidableEq, Repr

/-- The `manual` control parameters — first entry of the table, also the
fallback for unknown or absent modes. -/
def manualControl : NiIfworkerControl :=
  { bootClass := none, requireLink := none, mandatory := true,
    persistent := false, timeout := .secs 30 }

/-- The `__ni_suse_control_params` table. -/
def ni_suse_control_params : List (String × NiIfworkerControl) :=
  [("manual", manualControl),
   ("auto", ⟨some "boot", none, false, true, .secs 30⟩),
   ("boot", ⟨some "boot", none, false, true, .secs 30⟩),
   ("onboot", ⟨some "boot", none, false, true, .secs 30⟩),
   ("on", ⟨some "boot", none, false, true, .secs 30⟩),
   ("hotplug", ⟨some "boot", none, false, false, .secs 30⟩),
   ("ifplugd", ⟨some "ignore", none, false, false, .secs 30⟩),
   ("nfsroot", ⟨some "boot", some "localfs", true, true, .infinite⟩),
   ("off", ⟨some "off", none, false, false, .secs 0⟩)]

/-- Table scan of `__ni_suse_startmode`: first entry whose name equals
the mode. -/
def control_lookup : List (String × NiIfworkerControl) → String → Option NiIfworkerControl
  | [], _ => none
  | p :: rest, m => if p.1 = m then some p.2 else control_lookup rest m

/-- `__ni_suse_startmode`: a `NULL` mode skips the scan; a failed scan
falls back to the table's first entry (`manual`). -/
def ni_suse_startmode (mode : Option String) : NiIfworkerControl :=
  match mode with
  | some m =>
    match control_lookup ni_suse_control_params m with
    | some c => c
    | none => manualControl
  | none => manualControl

/-! ## Interface object model (`src/interface.c`): leases -/

/-- Addrconf mechanisms (`ni_addrconf_mode_t`). -/
inductive NiAddrconfMode where
  | dhcp
  | static
  | autoconf
  | ibft
deriving DecidableEq, Repr, Fintype

/-- A lease (`ni_addrconf_lease_t`): family, mechanism, recorded
addresses and routes. -/
structure NiAddrconfLease where
  family : AF
  type : NiAddrconfMode
  addrs : List NiAddress := []
  routes : List NiRoute := []
deriving DecidableEq, Repr

/-- Modelled from the spec: `ni_address_equal` — same family and same
raw address bytes. -/
def ni_address_equal (a b : NiSockaddr) : Bool := decide (a = b)

/-- Modelled from the spec: `ni_address_prefix_match pfxlen a b` — the
families match and the first `pfxlen` bits of the two addresses agree. -/
def ni_address_prefix_match (pfxlen : Nat) (a b : NiSockaddr) : Bool :=
  let w := afWidth a.family
  let sh := w - min pfxlen w
  decide (a.family = b.family) && decide (a.value / 2 ^ sh = b.value / 2 ^ sh)

/-- `__ni_lease_owns_address` at time `now` (the source calls
`time(NULL)`).  The family gate, the IPv6-autoconf route-prefix scan and
the address-list scan mirror the source; in particular the non-autoconf
branch of the address loop skips an entry when the local addresses ARE
equal (`if (ni_address_equal(..)) continue;`), verbatim from the C. -/
def ni_lease_owns_address (now : Nat) (lease : NiAddrconfLease) (m : NiAddress) : Bool :=
  if lease.family ≠ m.family then false
  else if (decide (lease.family = AF.inet6) && decide (lease.type = NiAddrconfMode.autoconf)) &&
          lease.routes.any (fun rp =>
            decide (rp.prefixlen = m.prefixlen) &&
            !(decide (rp.expires ≠ 0) && decide (rp.expires ≤ now)) &&
            ni_address_prefix_match rp.prefixlen rp.destination m.local_addr) then
    true
  else
    lease.addrs.any (fun ap =>
      decide (ap.prefixlen = m.prefixlen) &&
      !(decide (ap.expires ≠ 0) && decide (ap.expires ≤ now)) &&
      (if decide (lease.family = AF.inet6) && decide (lease.type = NiAddrconfMode.autoconf) then
         ni_address_prefix_match m.prefixlen ap.local_addr m.local_addr
       else !(ni_address_equal ap.local_addr m.local_addr)) &&
      ni_address_equal ap.peer_addr m.peer_addr &&
      ni_address_equal ap.anycast_addr m.anycast_addr)

/-- `__ni_interface_find_lease` with `remove = 1` followed by
`ni_addrconf_lease_free`, i.e. `ni_interface_unset_lease`: drop the
first lease with the given (family, mechanism) key. -/
def ni_interface_unset_lease : List NiAddrconfLease → AF → NiAddrconfMode → List NiAddrconfLease
  | [], _, _ => []
  | l :: rest, f, t =>
    if l.type = t ∧ l.family = f then rest
    else l :: ni_interface_unset_lease rest f t

/-- `ni_interface_set_lease`: unset any lease with the new lease's key,
then append the new lease at the tail of the list. -/
def ni_interface_set_lease (leases : List NiAddrconfLease) (l : NiAddrconfLease) :
    List NiAddrconfLease :=
  ni_interface_unset_lease leases l.family l.type ++ [l]

/-- Number of leases in a list carrying a given (family, mechanism) key. -/
def countLeaseKey (leases : List NiAddrconfLease) (f : AF) (t : NiAddrconfMode) : Nat :=
  (leases.filter (fun l => decide (l.type = t ∧ l.family = f))).length

/-! ## Exemplar inputs -/

/-- A recorded DHCP lease address: `10.0.0.1/24`, zero peer and anycast,
never expiring. -/
def addrEx : NiAddress :=
  { family := .inet, prefixlen := 24, local_addr := ⟨.inet, 0x0A000001⟩ }

/-- An IPv4 DHCP lease recording exactly `addrEx`. -/
def leaseEx : NiAddrconfLease := { family := .inet, type := .dhcp, addrs := [addrEx] }

/-- A second IPv4 DHCP lease (same key as `leaseEx`, different payload). -/
def leaseEx2 : NiAddrconfLease :=
  { family := .inet, type := .dhcp,
    addrs := [{ family := .inet, prefixlen := 16, local_addr := ⟨.inet, 0x0A010001⟩ }] }

/-- Three fresh bridge ports. -/
def portsEx : List NiBridgePort := [{ ifname := "eth0" }, { ifname := "eth1" }, { ifname := "eth2" }]

/-- A sysconfig fragment with a well-formed IPv4 address and an
unparseable netmask. -/
def scBadMask : List NiVar := [⟨"IPADDR", "10.0.0.1"⟩, ⟨"NETMASK", "garbage"⟩]

/-! ## Supporting lemmas -/

theorem countLeaseKey_nil (f : AF) (t : NiAddrconfMode) : countLeaseKey [] f t = 0 := rfl

theorem countLeaseKey_cons (l : NiAddrconfLease) (L : List NiAddrconfLease)
    (f : AF) (t : NiAddrconfMode) :
    countLeaseKey (l :: L) f t =
      (if l.type = t ∧ l.family = f then 1 else 0) + countLeaseKey L f t := by
  simp only [countLeaseKey, List.filter_cons, decide_eq_true_eq]
  by_cases h : (l.type = t ∧ l.family = f)
  · rw [if_pos h, if_pos h]
    simp [Nat.add_comm]
  · rw [if_neg h, if_neg h]
    simp

theorem countLeaseKey_append (A B : List NiAddrconfLease) (f : AF) (t : NiAddrconfMode) :
    countLeaseKey (A ++ B) f t = countLeaseKey A f t + countLeaseKey B f t := by
  simp [countLeaseKey, List.filter_append]

theorem countLeaseKey_unset_le (L : List NiAddrconfLease) (f : AF) (t : NiAddrconfMode)
    (f2 : AF) (t2 : NiAddrconfMode) :
    countLeaseKey (ni_interface_unset_lease L f t) f2 t2 ≤ countLeaseKey L f2 t2 := by
  induction L with
  | nil => simp [ni_interface_unset_lease]
  | cons l rest ih =>
    simp only [ni_interface_unset_lease]
    split
    · rw [countLeaseKey_cons]
      split <;> omega
    · rw [countLeaseKey_cons, countLeaseKey_cons]
      split <;> omega

theorem countLeaseKey_unset_eq_zero (L : List NiAddrconfLease) (f : AF) (t : NiAddrconfMode)
    (h : countLeaseKey L f t ≤ 1) :
    countLeaseKey (ni_interface_unset_lease L f t) f t = 0 := by
  induction L with
  | nil => simp [ni_interface_unset_lease, countLeaseKey]
  | cons l rest ih =>
    rw [countLeaseKey_cons] at h
    simp only [ni_interface_unset_lease]
    split
    · next hc =>
      rw [if_pos hc] at h
      have hz : countLeaseKey rest f t = 0 := by omega
      exact hz
    · next hc =>
      rw [countLeaseKey_cons, if_neg hc]
      rw [if_neg hc] at h
      have := ih (by omega)
      omega

theorem read_routes_go_of_error (lines : List String) :
    ∀ (acc : List NiRoute) (bad : String), bad ∈ lines →
      parse_route_line bad = .error () → read_routes_go lines acc = none := by
  induction lines with
  | nil => intro acc bad h; cases h
  | cons l rest ih =>
    intro acc bad hmem hbad
    rcases List.mem_cons.mp hmem with h | h
    · subst h
      simp [read_routes_go, hbad]
    · cases hpl : parse_route_line l with
      | error e => simp [read_routes_go, hpl]
      | ok v =>
        cases v with
        | none => simpa [read_routes_go, hpl] using ih acc bad h hbad
        | some r => simpa [read_routes_go, hpl] using ih (acc ++ [r]) bad h hbad

/-! ## Claims -/

/-- C1: a malformed destination, gateway or mask on any single line of a
route file aborts the parse of the entire file: the result is `none`
(NULL), so routes built from earlier well-formed lines are discarded and
never reach the caller. -/
theorem read_routes_whole_file_abort (lines : List String) (bad : String)
    (hmem : bad ∈ lines) (hbad : parse_route_line bad = .error ()) :
    ni_suse_read_routes lines = none :=
  read_routes_go_of_error lines [] bad hmem hbad

/-- Witness for C1: a file whose first line is a well-formed default
route and whose second line has an unparseable destination yields no
route list at all. -/
theorem read_routes_whole_file_abort_witness :
    ni_suse_read_routes ["default 192.168.1.1 - -", "zzz@ 10.0.0.1"] = none :=
  read_routes_whole_file_abort ["default 192.168.1.1 - -", "zzz@ 10.0.0.1"]
    "zzz@ 10.0.0.1" (by decide) (by decide)

/-- C2 (code bug, evaluated at the failing input): with
`BOOTPROTO="dhcp4+dhcp6"` the token loop enables neither DHCP4 nor
DHCP6 and instead warns about both tokens, because the `dhcp4`, `dhcp6`
and `autoip` branches compare the whole variable `value` rather than the
token `s`; the claim says both would be enabled. -/
theorem bootproto_plus_tokens_not_cumulative :
    ni_suse_bootproto [⟨"BOOTPROTO", "dhcp4+dhcp6"⟩] "eth0" =
      { dhcp4 := false, dhcp6 := false, autoip := false, staticDone := true,
        warnings := ["dhcp4", "dhcp6"] } := by
  decide

/-- C3 (code bug, evaluated at the failing input): for a non-autoconf
lease, `__ni_lease_owns_address` skips every lease address whose local
address EQUALS the candidate's (the negation is missing before
`ni_address_equal`), so the lease does not own its own exactly-matching
address, while a candidate with a DIFFERENT local address but equal
peer/anycast is reported as owned; the claim requires equal local
addresses. -/
theorem lease_owns_address_equality_inverted :
    ni_lease_owns_address 1000 leaseEx addrEx = false ∧
    ni_lease_owns_address 1000 leaseEx
      { addrEx with local_addr := ⟨AF.inet, 0x0A000002⟩ } = true := by
  decide

/-- C4: assuming the invariant that the lease list holds at most one
lease per (family, mechanism) key, `ni_interface_set_lease` leaves
exactly one lease with the new lease's key and preserves the at-most-one
invariant for every key. -/
theorem set_lease_unique_per_key (leases : List NiAddrconfLease) (l : NiAddrconfLease)
    (hinv : ∀ f t, countLeaseKey leases f t ≤ 1) :
    countLeaseKey (ni_interface_set_lease leases l) l.family l.type = 1 ∧
    ∀ f t, countLeaseKey (ni_interface_set_lease leases l) f t ≤ 1 := by
  constructor
  · rw [ni_interface_set_lease, countLeaseKey_append,
        countLeaseKey_unset_eq_zero leases l.family l.type (hinv l.family l.type)]
    simp [countLeaseKey]
  · intro f t
    rw [ni_interface_set_lease, countLeaseKey_append]
    by_cases h : (l.type = t ∧ l.family = f)
    · obtain ⟨h1, h2⟩ := h
      subst h1; subst h2
      rw [countLeaseKey_unset_eq_zero leases l.family l.type (hinv l.family l.type)]
      simp [countLeaseKey]
    · have h3 : countLeaseKey [l] f t = 0 := by
        simp only [countLeaseKey, List.filter_cons]
        simp [h]
      rw [h3]
      have h4 := countLeaseKey_unset_le leases l.family l.type f t
      have h5 := hinv f t
      omega

/-- Witness for C4: replacing the attached IPv4 DHCP lease with another
IPv4 DHCP lease leaves exactly one lease with that key. -/
theorem set_lease_unique_per_key_witness :
    countLeaseKey (ni_interface_set_lease [leaseEx] leaseEx2) AF.inet NiAddrconfMode.dhcp = 1 :=
  (set_lease_unique_per_key [leaseEx] leaseEx2 (by decide)).1

/-- C5 (code bug, evaluated at the failing inputs): `try_bridge` stores
`stp = FALSE` for the case-insensitive values `yes`/`on` and
`stp = TRUE` for `no`/`off` — the inverse of the claim's mapping — while
any other value does fail with a parse error naming BRIDGE_STP. -/
theorem try_bridge_stp_inverted :
    try_bridge_stp "yes" = .ok false ∧ try_bridge_stp "on" = .ok false ∧
    try_bridge_stp "no" = .ok true ∧ try_bridge_stp "off" = .ok true ∧
    try_bridge_stp "enable" = .error "BRIDGE_STP" := by
  decide

/-- C6 (code bug, evaluated at the failing input): port priorities are
aligned positionally as claimed (`"10 -"` over three ports sets only
eth0), but the path-cost loop advances its port index twice per token
(`data[i++]` in the body plus `++i` in the for-update), so
`BRIDGE_PATHCOSTS="10 20"` over ports eth0 eth1 eth2 sets eth0's cost to
10 and eth2's — not eth1's — to 20. -/
theorem bridge_pathcosts_skip_ports :
    apply_port_priorities portsEx ["10", "-"] 0 =
      .ok [{ ifname := "eth0", priority := some 10 }, { ifname := "eth1" }, { ifname := "eth2" }] ∧
    apply_port_pathcosts portsEx ["10", "20"] 0 =
      .ok [{ ifname := "eth0", path_cost := some 10 }, { ifname := "eth1" },
           { ifname := "eth2", path_cost := some 20 }] := by
  decide

/-- C7 (code bug, evaluated at the failing input): for `TUNNEL="tun"`
the recognizer assigns the cast of the value pointer itself
(`(ni_iftype_t)value`), which is no `ni_iftype_t` table constant at all,
rather than `NI_IFTYPE_TUN`; a value outside the table does leave the
link type unset without an error. -/
theorem try_tunnel_assigns_cast_pointer :
    (try_tunnel (some "tun") (.iftype .unknown)).1 = NiLinkTypeValue.castPtr "tun" ∧
    (∀ t : NiIftype, NiLinkTypeValue.castPtr "tun" ≠ NiLinkTypeValue.iftype t) ∧
    (try_tunnel (some "mystery") (.iftype .unknown)).1 = NiLinkTypeValue.iftype .unknown :=
  ⟨rfl, fun _ h => NiLinkTypeValue.noConfusion h, rfl⟩

/-- C8: for every parseable `IPADDR` text the resulting prefix length
follows the priority order — (1) a prefix encoded in the address text
wins; (2) else a present `PREFIXLEN` variable; (3) else, for IPv4, a
`NETMASK` variable that parses as an IPv4 address contributes its
set-bit count; (4) else the family's full width (32 or 128). -/
theorem get_ipaddr_prefixlen_priority (sc : List NiVar) (suffix : String) (v : NiVar)
    (addr : NiSockaddr) (pfx : Option Nat)
    (hvar : find_indexed_variable sc "IPADDR" suffix = some v)
    (hparse : ni_sockaddr_prefix_parse v.value = some (addr, pfx)) :
    ∃ ap, get_ipaddr sc suffix = .ok (some ap) ∧ ap.local_addr = addr ∧
      (∀ p, pfx = some p → ap.prefixlen = p) ∧
      (∀ pv, pfx = none → find_indexed_variable sc "PREFIXLEN" suffix = some pv →
        ap.prefixlen = strtoulBase0 pv.value.toList) ∧
      (∀ mv m, pfx = none → find_indexed_variable sc "PREFIXLEN" suffix = none →
        addr.family = AF.inet → find_indexed_variable sc "NETMASK" suffix = some mv →
        ni_sockaddr_parse AF.inet mv.value = some m →
        ap.prefixlen = popcount m.value) ∧
      (pfx = none → find_indexed_variable sc "PREFIXLEN" suffix = none →
        (addr.family = AF.inet6 ∨ (addr.family = AF.inet ∧
          ∀ mv, find_indexed_variable sc "NETMASK" suffix = some mv →
            ni_sockaddr_parse AF.inet mv.value = none)) →
        ap.prefixlen = afWidth addr.family) := by
  refine ⟨{ family := addr.family
            prefixlen :=
              match pfx with
              | some p => p
              | none => get_ipaddr_prefixlen sc suffix addr.family
            local_addr := addr
            bcast_addr :=
              if addr.family = AF.inet then get_ipaddr_bcast_addr sc suffix else {}
            peer_addr := get_ipaddr_peer_addr sc suffix addr.family },
          ?_, rfl, ?_, ?_, ?_, ?_⟩
  · cases pfx <;> simp [get_ipaddr, hvar, hparse]
  · intro p hp
    subst hp
    rfl
  · intro pv h0 hpv
    subst h0
    simp [get_ipaddr_prefixlen, hpv]
  · intro mv m h0 hnone hfam hmv hm
    subst h0
    simp [get_ipaddr_prefixlen, hnone, hfam, hmv, hm, ni_sockaddr_netmask_bits]
  · intro h0 hnone hcase
    subst h0
    simp only [get_ipaddr_prefixlen, hnone]
    rcases hcase with h6 | ⟨h4, hbad⟩
    · rw [h6]
      simp
    · rw [h4]
      simp only [if_pos rfl]
      cases hmv : find_indexed_variable sc "NETMASK" suffix with
      | none => rfl
      | some mv => simp [hbad mv hmv]

/-- Witness for C8: `IPADDR="192.168.1.5"` with `NETMASK="255.255.255.0"`
yields prefix length 24 by counting the netmask's set bits. -/
theorem get_ipaddr_prefixlen_priority_witness :
    ∃ ap, get_ipaddr [⟨"IPADDR", "192.168.1.5"⟩, ⟨"NETMASK", "255.255.255.0"⟩] "" =
      .ok (some ap) ∧ ap.prefixlen = 24 := by
  obtain ⟨ap, hok, hl, h1, h2, h3, h4⟩ :=
    get_ipaddr_prefixlen_priority [⟨"IPADDR", "192.168.1.5"⟩, ⟨"NETMASK", "255.255.255.0"⟩]
      "" ⟨"IPADDR", "192.168.1.5"⟩ ⟨AF.inet, 3232235781⟩ none (by decide) (by decide)
  refine ⟨ap, hok, ?_⟩
  rw [h3 ⟨"NETMASK", "255.255.255.0"⟩ ⟨AF.inet, 4294967040⟩ rfl rfl rfl (by decide) (by decide)]
  decide

/-- C9 counterexample: with `IPADDR="10.0.0.1"` and `NETMASK="garbage"`
(no encoded prefix, no PREFIXLEN), address construction does NOT fail —
it succeeds with the default prefix length 32. -/
theorem get_ipaddr_bad_netmask_no_failure :
    get_ipaddr scBadMask "" =
      .ok (some { family := AF.inet, prefixlen := 32,
                  local_addr := ⟨AF.inet, 0x0A000001⟩ }) ∧
    get_ipaddr scBadMask "" ≠ .error () := by
  decide

/-- C9 as amended: when the address text encodes no prefix, no
`PREFIXLEN` variable is present, and a `NETMASK` variable is present but
does not parse as an IPv4 address, the netmask is ignored and the prefix
length falls back to the IPv4 full width 32 (construction succeeds). -/
theorem get_ipaddr_bad_netmask_defaults (sc : List NiVar) (suffix : String) (v : NiVar)
    (addr : NiSockaddr)
    (hvar : find_indexed_variable sc "IPADDR" suffix = some v)
    (hparse : ni_sockaddr_prefix_parse v.value = some (addr, none))
    (hfam : addr.family = AF.inet)
    (hnopl : find_indexed_variable sc "PREFIXLEN" suffix = none)
    (mv : NiVar)
    (hmv : find_indexed_variable sc "NETMASK" suffix = some mv)
    (hbad : ni_sockaddr_parse AF.inet mv.value = none) :
    ∃ ap, get_ipaddr sc suffix = .ok (some ap) ∧ ap.prefixlen = 32 := by
  refine ⟨{ family := addr.family
            prefixlen := get_ipaddr_prefixlen sc suffix addr.family
            local_addr := addr
            bcast_addr :=
              if addr.family = AF.inet then get_ipaddr_bcast_addr sc suffix else {}
            peer_addr := get_ipaddr_peer_addr sc suffix addr.family }, ?_, ?_⟩
  · simp [get_ipaddr, hvar, hparse]
  · simp [get_ipaddr_prefixlen, hnopl, hfam, hmv, hbad, afWidth]

/-- Witness for C9's amended claim at a concrete input. -/
theorem get_ipaddr_bad_netmask_defaults_witness :
    ∃ ap, get_ipaddr [⟨"IPADDR", "10.0.0.99"⟩, ⟨"NETMASK", "nonsense"⟩] "" =
      .ok (some ap) ∧ ap.prefixlen = 32 :=
  get_ipaddr_bad_netmask_defaults [⟨"IPADDR", "10.0.0.99"⟩, ⟨"NETMASK", "nonsense"⟩] ""
    ⟨"IPADDR", "10.0.0.99"⟩ ⟨AF.inet, 0x0A000063⟩ (by decide) (by decide) rfl (by decide)
    ⟨"NETMASK", "nonsense"⟩ (by decide) (by decide)

/-- C10: start-mode resolution is total — for every STARTMODE value
outside the fixed table, and when STARTMODE is absent, the control
policy is the `manual` one: no link class, no require-link, mandatory,
non-persistent, 30-second timeout. -/
theorem startmode_defaults_to_manual (mode : Option String)
    (h : ∀ s ∈ ["manual", "auto", "boot", "onboot", "on",
                "hotplug", "ifplugd", "nfsroot", "off"], mode ≠ some s) :
    ni_suse_startmode mode = manualControl ∧
    manualControl = { bootClass := none, requireLink := none, mandatory := true,
                      persistent := false, timeout := .secs 30 } := by
  refine ⟨?_, rfl⟩
  cases mode with
  | none => rfl
  | some m =>
    have h1 : ¬("manual" = m) := fun e => h "manual" (by simp) (by rw [e])
    have h2 : ¬("auto" = m) := fun e => h "auto" (by simp) (by rw [e])
    have h3 : ¬("boot" = m) := fun e => h "boot" (by simp) (by rw [e])
    have h4 : ¬("onboot" = m) := fun e => h "onboot" (by simp) (by rw [e])
    have h5 : ¬("on" = m) := fun e => h "on" (by simp) (by rw [e])
    have h6 : ¬("hotplug" = m) := fun e => h "hotplug" (by simp) (by rw [e])
    have h7 : ¬("ifplugd" = m) := fun e => h "ifplugd" (by simp) (by rw [e])
    have h8 : ¬("nfsroot" = m) := fun e => h "nfsroot" (by simp) (by rw [e])
    have h9 : ¬("off" = m) := fun e => h "off" (by simp) (by rw [e])
    simp [ni_suse_startmode, ni_suse_control_params, control_lookup,
          h1, h2, h3, h4, h5, h6, h7, h8, h9]

/-- Witness for C10: an unknown mode resolves to the manual policy. -/
theorem startmode_defaults_to_manual_witness :
    ni_suse_startmode (some "sometimes") = manualControl :=
  (startmode_defaults_to_manual (some "sometimes") (by decide)).1

end Wicked
